import Mathlib

/-!
# Verification of the comment-remover core

Shallow embedding of the comment-remover repository's core components
(`language_patterns.py`, `comment_detector.py`, `file_modifier.py`).
Lines and file paths are modelled as `List Char`; Python string
operations (`strip`, `find`, `count`, `endswith`, slicing) are embedded
as executable functions below.
-/

namespace CommentRemover

/-- Python whitespace characters, as recognised by `str.strip()`. -/
def isPySpace (c : Char) : Bool :=
  c = ' ' || c = '\t' || c = '\n' || c = '\r' || c = '\x0b' || c = '\x0c'

/-- Python `str.lstrip()`. -/
def lstrip (l : List Char) : List Char := l.dropWhile isPySpace

/-- Python `str.rstrip()`. -/
def rstrip (l : List Char) : List Char := (l.reverse.dropWhile isPySpace).reverse

/-- Python `str.strip()`. -/
def strip (l : List Char) : List Char := rstrip (lstrip l)

/-- Python `hay.find(needle)`: index of the first occurrence of `needle`
in `hay`, `none` when absent. -/
def findSub (needle : List Char) : List Char → Option Nat
  | [] => if needle.isEmpty then some 0 else none
  | c :: rest =>
    if needle.isPrefixOf (c :: rest) then some 0
    else (findSub needle rest).map (· + 1)

/-- Python `needle in hay` on strings. -/
def containsSub (needle hay : List Char) : Bool := (findSub needle hay).isSome

/-- Left-to-right scan for `countSub`; `fuel` is an upper bound on the
remaining list length, making the recursion structural. -/
def countSubFuel (needle : List Char) : Nat → List Char → Nat
  | 0, _ => 0
  | _, [] => 0
  | fuel + 1, c :: rest =>
    if needle.isPrefixOf (c :: rest) then
      1 + countSubFuel needle fuel (List.drop (needle.length - 1) rest)
    else
      countSubFuel needle fuel rest

/-- Python `hay.count(needle)`: number of non-overlapping occurrences,
scanning from the left (on a match the scan resumes after the matched
occurrence). -/
def countSub (needle hay : List Char) : Nat :=
  countSubFuel needle hay.length hay

/-- Python `line.endswith(chr(10))`. -/
def endsWithNl (l : List Char) : Bool := l.getLast? = some '\n'

/-- `CommentPattern` dataclass from `language_patterns.py`: all three
fields default to `None`. -/
structure CommentPattern where
  single_line : Option (List (List Char)) := none
  multi_line_start : Option (List (List Char)) := none
  multi_line_end : Option (List (List Char)) := none
deriving DecidableEq, Repr

/-- Python truthiness of an `Optional[List]`: `None` and `[]` are falsy. -/
def truthyList {α : Type} (o : Option (List α)) : Bool :=
  match o with
  | none => false
  | some l => !l.isEmpty

/-- Python truthiness of an `Optional[str]`: `None` and the empty string
are falsy. -/
def truthyStr (o : Option (List Char)) : Bool :=
  match o with
  | none => false
  | some s => !s.isEmpty

/-- `EXTENSION_TO_LANGUAGE` from `language_patterns.py`, in the dict's
insertion order (Python dicts iterate in insertion order). -/
def EXTENSION_TO_LANGUAGE : List (List Char × String) :=
  [(".c".toList, "c_style"),
   (".h".toList, "c_style"),
   (".cpp".toList, "c_style"),
   (".hpp".toList, "c_style"),
   (".cc".toList, "c_style"),
   (".cxx".toList, "c_style"),
   (".java".toList, "c_style"),
   (".js".toList, "c_style"),
   (".jsx".toList, "c_style"),
   (".ts".toList, "c_style"),
   (".tsx".toList, "c_style"),
   (".go".toList, "c_style"),
   (".rs".toList, "c_style"),
   (".cs".toList, "c_style"),
   (".kt".toList, "c_style"),
   (".swift".toList, "c_style"),
   (".scala".toList, "c_style"),
   (".m".toList, "c_style"),
   (".mm".toList, "c_style"),
   (".py".toList, "python"),
   (".rb".toList, "ruby"),
   (".sh".toList, "shell"),
   (".bash".toList, "shell"),
   (".zsh".toList, "shell"),
   (".fish".toList, "shell"),
   (".pl".toList, "perl"),
   (".pm".toList, "perl"),
   (".php".toList, "php"),
   (".sql".toList, "sql"),
   (".html".toList, "html"),
   (".htm".toList, "html"),
   (".xml".toList, "html"),
   (".css".toList, "css"),
   (".scss".toList, "css"),
   (".sass".toList, "css"),
   (".less".toList, "css"),
   (".yaml".toList, "yaml"),
   (".yml".toList, "yaml"),
   (".r".toList, "r"),
   (".R".toList, "r"),
   (".lua".toList, "lua"),
   (".vim".toList, "vim")]

/-- `LANGUAGE_PATTERNS` from `language_patterns.py`. -/
def LANGUAGE_PATTERNS : List (String × CommentPattern) :=
  [("c_style",
    { single_line := some ["//".toList],
      multi_line_start := some ["/*".toList],
      multi_line_end := some ["*/".toList] }),
   ("python",
    { single_line := some ["#".toList],
      multi_line_start := some [['"', '"', '"'], ['\'', '\'', '\'']],
      multi_line_end := some [['"', '"', '"'], ['\'', '\'', '\'']] }),
   ("ruby",
    { single_line := some ["#".toList],
      multi_line_start := some ["=begin".toList],
      multi_line_end := some ["=end".toList] }),
   ("shell", { single_line := some ["#".toList] }),
   ("perl",
    { single_line := some ["#".toList],
      multi_line_start := some ["=pod".toList],
      multi_line_end := some ["=cut".toList] }),
   ("php",
    { single_line := some ["//".toList, "#".toList],
      multi_line_start := some ["/*".toList],
      multi_line_end := some ["*/".toList] }),
   ("sql",
    { single_line := some ["--".toList],
      multi_line_start := some ["/*".toList],
      multi_line_end := some ["*/".toList] }),
   ("html",
    { multi_line_start := some ["<!--".toList],
      multi_line_end := some ["-->".toList] }),
   ("css",
    { multi_line_start := some ["/*".toList],
      multi_line_end := some ["*/".toList] }),
   ("yaml", { single_line := some ["#".toList] }),
   ("r", { single_line := some ["#".toList] }),
   ("lua",
    { single_line := some ["--".toList],
      multi_line_start := some ["--[[".toList],
      multi_line_end := some ["]]".toList] }),
   ("vim", { single_line := some [['"']] })]

/-- The `for ext, lang in EXTENSION_TO_LANGUAGE.items()` loop of
`detect_language`: first extension that is a suffix of the path wins
(`filepath.endswith(ext)`). -/
def lookupLanguage : List (List Char × String) → List Char → Option String
  | [], _ => none
  | (ext, lang) :: rest, filepath =>
    if ext <:+ filepath then some lang else lookupLanguage rest filepath

/-- `detect_language` from `language_patterns.py`: iterate the extension
table in insertion order, returning the language of the first extension
that is a suffix of the path, else `None`. -/
def detect_language (filepath : List Char) : Option String :=
  lookupLanguage EXTENSION_TO_LANGUAGE filepath

/-- `get_comment_pattern` from `language_patterns.py`. -/
def get_comment_pattern (language : String) : Option CommentPattern :=
  (LANGUAGE_PATTERNS.find? (fun kv => kv.1 = language)).map (·.2)

/-- `_is_in_string` from `comment_detector.py` (the identical copy in
`file_modifier.py` is embedded by this same function): quote-parity
heuristic, `text.count over quote minus text.count over escaped quote`,
odd for either quote kind means inside a string. Counts are subtracted
in `Int` as in Python. -/
def is_in_string (text : List Char) : Bool :=
  let single_quotes : Int := (countSub [.ofNat 39] text : Int) - (countSub [.ofNat 92, .ofNat 39] text : Int)
  let double_quotes : Int := (countSub [.ofNat 34] text : Int) - (countSub [.ofNat 92, .ofNat 34] text : Int)
  single_quotes % 2 = 1 || double_quotes % 2 = 1

/-- Result dict of `_check_multiline_comment`. -/
structure MultilineResult where
  is_comment : Bool
  in_multiline : Bool
  start_marker : Option (List Char)
  is_inline : Bool
deriving DecidableEq, Repr

/-- The `for start_marker in pattern.multi_line_start` loop of
`_check_multiline_comment` (lines 162-183), for the not-in-block case;
`i` is the running `enumerate` index. -/
def checkOpenLoop (stripped : List Char) (ends : List (List Char)) :
    List (List Char) → Nat → MultilineResult
  | [], _ => ⟨false, false, none, false⟩
  | start_marker :: rest, i =>
    if containsSub start_marker stripped then
      let end_marker := if i < ends.length then ends.getD i [] else ends.getD 0 []
      if containsSub end_marker stripped then
        let start_idx := (findSub start_marker stripped).getD 0
        let before_comment := strip (stripped.take start_idx)
        ⟨true, false, none, !before_comment.isEmpty⟩
      else
        ⟨true, true, some start_marker, false⟩
    else
      checkOpenLoop stripped ends rest (i + 1)

/-- `_check_multiline_comment` from `comment_detector.py`. The in-block
branch folds the `for end_marker in pattern.multi_line_end` loop into
`List.any` (the loop's only effect is setting `is_end`). -/
def check_multiline_comment (line : List Char) (pattern : CommentPattern)
    (currently_in_multiline : Bool) (current_start_marker : Option (List Char)) :
    MultilineResult :=
  let stripped := strip line
  if currently_in_multiline then
    let ends := pattern.multi_line_end.getD []
    let starts := pattern.multi_line_start.getD []
    let is_end := ends.any (fun end_marker =>
      if truthyStr current_start_marker && truthyList pattern.multi_line_start then
        let start_idx := starts.indexOf (current_start_marker.getD [])
        decide (start_idx < ends.length) &&
          (ends.getD start_idx [] = end_marker) &&
          containsSub end_marker stripped
      else
        containsSub end_marker stripped)
    if is_end then
      ⟨true, false, none, false⟩
    else
      ⟨true, true, current_start_marker, false⟩
  else
    checkOpenLoop stripped (pattern.multi_line_end.getD [])
      (pattern.multi_line_start.getD []) 0

/-- The `for marker in pattern.single_line` loop of
`_check_single_line_comment` (lines 206-225). Returns `some is_inline`
when a marker is honoured, `none` after exhausting all markers. -/
def singleLineLoop (stripped : List Char) : List (List Char) → Option Bool
  | [] => none
  | marker :: rest =>
    match findSub marker stripped with
    | none => singleLineLoop stripped rest
    | some marker_idx =>
      if marker_idx = 0 then some false
      else
        let before_marker := stripped.take marker_idx
        if is_in_string before_marker then singleLineLoop stripped rest
        else if !(strip before_marker).isEmpty then some true
        else some false

/-- `_check_single_line_comment` from `comment_detector.py`:
`none` when the line is not a comment, otherwise `some is_inline`. -/
def check_single_line_comment (line : List Char) (pattern : CommentPattern) :
    Option Bool :=
  let stripped := strip line
  if stripped.isEmpty then none
  else singleLineLoop stripped (pattern.single_line.getD [])

/-- One line of a parsed unified diff (the fields of a `unidiff` line the
detector reads: `is_added`, `value`, `target_line_no`). -/
structure DiffLine where
  is_added : Bool
  value : List Char
  target_line_no : Nat
deriving DecidableEq, Repr

/-- `CommentLine` dataclass from `comment_detector.py`. -/
structure CommentLine where
  filepath : List Char
  line_number : Nat
  content : List Char
  is_inline : Bool
deriving DecidableEq, Repr

/-- One file of a parsed unified diff (the fields of a `unidiff`
`PatchedFile` the detector reads). -/
structure PatchedFile where
  path : List Char
  is_added_file : Bool
  is_modified_file : Bool
  hunks : List (List DiffLine)
deriving DecidableEq, Repr

/-- The nested `for hunk / for line` loop of `_detect_comments_in_file`
(lines 67-113), over the flattened line stream, threading the per-file
state `(in_multiline_comment, multiline_start_marker)`. -/
def detectLoop (filepath : List Char) (pattern : CommentPattern) :
    List DiffLine → Bool → Option (List Char) → List CommentLine
  | [], _, _ => []
  | l :: rest, in_ml, start_m =>
    if !l.is_added then
      detectLoop filepath pattern rest in_ml start_m
    else
      if truthyList pattern.multi_line_start && truthyList pattern.multi_line_end then
        let r := check_multiline_comment l.value pattern in_ml start_m
        if r.is_comment then
          ⟨filepath, l.target_line_no, l.value, r.is_inline⟩ ::
            detectLoop filepath pattern rest r.in_multiline r.start_marker
        else
          (if truthyList pattern.single_line then
            match check_single_line_comment l.value pattern with
            | some b => [⟨filepath, l.target_line_no, l.value, b⟩]
            | none => []
          else []) ++ detectLoop filepath pattern rest r.in_multiline r.start_marker
      else
        (if truthyList pattern.single_line then
          match check_single_line_comment l.value pattern with
          | some b => [⟨filepath, l.target_line_no, l.value, b⟩]
          | none => []
        else []) ++ detectLoop filepath pattern rest in_ml start_m

/-- `_detect_comments_in_file` from `comment_detector.py`: scan the
file's hunks with the state initialised to `(False, None)`. -/
def detect_comments_in_file (patched_file : PatchedFile) (filepath : List Char)
    (pattern : CommentPattern) : List CommentLine :=
  detectLoop filepath pattern patched_file.hunks.flatten false none

/-- `detect_comments` from `comment_detector.py`. The Python dict
`comments_by_file` is modelled as an insertion-ordered association list
(file paths in one patch set are distinct, so dict insertion is append). -/
def detect_comments (patch_set : List PatchedFile) :
    List (List Char × List CommentLine) :=
  match patch_set with
  | [] => []
  | patched_file :: rest =>
    if !patched_file.is_added_file && !patched_file.is_modified_file then
      detect_comments rest
    else
      match detect_language patched_file.path with
      | none => detect_comments rest
      | some language =>
        if language.isEmpty then detect_comments rest
        else
          match get_comment_pattern language with
          | none => detect_comments rest
          | some pattern =>
            let file_comments := detect_comments_in_file patched_file patched_file.path pattern
            if file_comments.isEmpty then detect_comments rest
            else (patched_file.path, file_comments) :: detect_comments rest

/-- Python `hay.find(needle, start)`: first occurrence at or after
index `start`. -/
def findSubFrom (needle hay : List Char) (start : Nat) : Option Nat :=
  (findSub needle (hay.drop start)).map (· + start)

/-- The fixed marker list of `_remove_inline_comment` in
`file_modifier.py` (line 92): hardcoded, not the language's profile. -/
def single_line_markers : List (List Char) :=
  ["//".toList, "#".toList, "--".toList]

/-- The `for marker in single_line_markers` loop of
`_remove_inline_comment` (lines 94-110): `some cleaned` when a marker is
honoured, `none` when the loop falls through to the block fallback. -/
def removeInlineLoop (line : List Char) : List (List Char) → Option (List Char)
  | [] => none
  | marker :: rest =>
    match findSub marker line with
    | none => removeInlineLoop line rest
    | some marker_idx =>
      let before_marker := line.take marker_idx
      if is_in_string before_marker then removeInlineLoop line rest
      else
        let cleaned := rstrip before_marker
        some (if endsWithNl line then cleaned ++ [.ofNat 10] else cleaned)

set_option linter.unusedVariables false in
/-- `_remove_inline_comment` from `file_modifier.py`: try the fixed
single-line markers, then a `/*...*/` opened-and-closed-on-one-line
block, else return the line unchanged. `original_line` (the
diff-captured text) is a parameter of the Python method but is never
read. -/
def remove_inline_comment (line original_line : List Char) : List Char :=
  match removeInlineLoop line single_line_markers with
  | some cleaned => cleaned
  | none =>
    match findSub ("/*".toList) line with
    | none => line
    | some start_idx =>
      let before_comment := line.take start_idx
      if is_in_string before_comment then line
      else
        match findSubFrom ("*/".toList) line start_idx with
        | none => line
        | some end_idx =>
          let after_comment := line.drop (end_idx + 2)
          let cleaned := rstrip before_comment ++ lstrip after_comment
          if !cleaned.isEmpty && !endsWithNl cleaned && endsWithNl line then
            cleaned ++ [.ofNat 10]
          else cleaned

/-- Python dict assignment `d[k] = v`: update in place when the key
exists, else append. -/
def assocSet (m : List (Nat × List Char)) (k : Nat) (v : List Char) :
    List (Nat × List Char) :=
  if m.any (fun kv => kv.1 = k) then
    m.map (fun kv => if kv.1 = k then (k, v) else kv)
  else m ++ [(k, v)]

/-- The `for comment in comments` loop of `_remove_comments_from_file`
(lines 58-69): partition valid occurrences into the removal set
(`lines_to_remove`, a Python set: duplicate indices are kept once) and
the modification dict (`lines_to_modify`). The index is computed in
`Int` as in Python (`line_number - 1`). -/
def collectLoop (lines : List (List Char)) :
    List CommentLine → List Nat → List (Nat × List Char) →
    List Nat × List (Nat × List Char)
  | [], to_remove, to_modify => (to_remove, to_modify)
  | c :: cs, to_remove, to_modify =>
    let line_idx : Int := (c.line_number : Int) - 1
    if line_idx < 0 || (lines.length : Int) ≤ line_idx then
      collectLoop lines cs to_remove to_modify
    else
      let idx := line_idx.toNat
      if c.is_inline then
        collectLoop lines cs to_remove
          (assocSet to_modify idx (remove_inline_comment (lines.getD idx []) c.content))
      else
        collectLoop lines cs (if idx ∈ to_remove then to_remove else to_remove ++ [idx]) to_modify

/-- The rebuild loop of `_remove_comments_from_file` (lines 71-78):
drop removed indices, substitute modified ones, keep the rest. -/
def rebuildLines (lines : List (List Char)) (to_remove : List Nat)
    (to_modify : List (Nat × List Char)) : List (List Char) :=
  lines.enum.filterMap (fun iv =>
    if iv.1 ∈ to_remove then none
    else
      match to_modify.find? (fun kv => kv.1 = iv.1) with
      | some kv => some kv.2
      | none => some iv.2)

/-- `_remove_comments_from_file` from `file_modifier.py`, with the file
content passed in and returned instead of read/written on disk: yields
the rewritten line sequence and the returned modification count
(`len(lines_to_remove) + len(lines_to_modify)`). -/
def remove_comments_from_file (lines : List (List Char))
    (comments : List CommentLine) : List (List Char) × Nat :=
  let rm := collectLoop lines comments [] []
  (rebuildLines lines rm.1 rm.2, rm.1.length + rm.2.length)

/-- The on-disk state under `repo_root`: an association of relative file
paths to line sequences (each line carrying its terminator, as
`readlines` yields). -/
abbrev FileSystem := List (List Char × List (List Char))

/-- `full_path.exists()` / reading a file: lookup by path. -/
def fsLookup (fs : FileSystem) (path : List Char) : Option (List (List Char)) :=
  (fs.find? (fun kv => kv.1 = path)).map (·.2)

/-- Writing a file back: replace the stored content at `path`. -/
def fsWrite (fs : FileSystem) (path : List Char) (content : List (List Char)) :
    FileSystem :=
  fs.map (fun kv => if kv.1 = path then (kv.1, content) else kv)

/-- `FileModifier.remove_comments` from `file_modifier.py`: files absent
from disk are skipped (warning only) and omitted from the stats; each
present file is rewritten and contributes its modification count. The
stats dict is modelled as an insertion-ordered association list. -/
def remove_comments (fs : FileSystem) :
    List (List Char × List CommentLine) → FileSystem × List (List Char × Nat)
  | [] => (fs, [])
  | (filepath, comments) :: rest =>
    match fsLookup fs filepath with
    | none => remove_comments fs rest
    | some lines =>
      let r := remove_comments_from_file lines comments
      let step := remove_comments (fsWrite fs filepath r.1) rest
      (step.1, (filepath, r.2) :: step.2)

/-! ## Theorems -/

/-- C5: for a Python file, the added line consisting of spaces and
`# comment` yields a whole-line occurrence and the added `x = 5`
line with a trailing `# comment` yields an inline occurrence; the
Rewriter removes the former line entirely and rewrites the latter to
the bare assignment with its terminator, leaving every other line
unchanged. -/
theorem python_wholeline_inline_scan_and_rewrite :
    detect_comments
      [⟨"test.py".toList, false, true,
        [[⟨false, "def foo():\n".toList, 1⟩,
          ⟨true, "    # comment\n".toList, 2⟩,
          ⟨true, "    x = 5  # comment\n".toList, 3⟩,
          ⟨false, "    pass\n".toList, 4⟩]]⟩] =
      [("test.py".toList,
        [⟨"test.py".toList, 2, "    # comment\n".toList, false⟩,
         ⟨"test.py".toList, 3, "    x = 5  # comment\n".toList, true⟩])] ∧
    remove_comments
      [("test.py".toList,
        ["def foo():\n".toList, "    # comment\n".toList,
         "    x = 5  # comment\n".toList, "    pass\n".toList])]
      [("test.py".toList,
        [⟨"test.py".toList, 2, "    # comment\n".toList, false⟩,
         ⟨"test.py".toList, 3, "    x = 5  # comment\n".toList, true⟩])] =
      ([("test.py".toList,
         ["def foo():\n".toList, "    x = 5\n".toList, "    pass\n".toList])],
       [("test.py".toList, 2)]) := by
  constructor
  · decide
  · decide

/-- C10: every file path present in the mapping returned by
`detect_comments` maps to a non-empty list of occurrences; a file in
which no added line is classified as a comment is never present with an
empty list. -/
theorem detect_comments_values_nonempty (ps : List PatchedFile) (p : List Char)
    (cs : List CommentLine) (h : (p, cs) ∈ detect_comments ps) : cs ≠ [] := by
  induction ps with
  | nil => simp [detect_comments] at h
  | cons pf rest ih =>
    rw [detect_comments] at h
    split at h
    · exact ih h
    · split at h
      · exact ih h
      · split at h
        · exact ih h
        · split at h
          · exact ih h
          · dsimp only at h
            split at h
            · exact ih h
            · rename_i hne
              rcases List.mem_cons.mp h with h1 | h1
              · obtain ⟨hp, hcs⟩ := Prod.mk.injEq .. ▸ h1
                subst hcs
                simpa using hne
              · exact ih h1

/-- Two concrete incomparable suffixes of the same list cannot both be
suffixes of it. -/
lemma not_suffix_of_ne (e t p : List Char) (ht : t <:+ p)
    (h1 : ¬ e <:+ t) (h2 : ¬ t <:+ e) : ¬ e <:+ p := fun he =>
  (List.suffix_or_suffix_of_suffix he ht).elim h1 h2

/-- `lookupLanguage` skips a leading block of extensions none of which
is a suffix of the path. -/
lemma lookupLanguage_append (l1 l2 : List (List Char × String)) (p : List Char)
    (h : ∀ kv ∈ l1, ¬ kv.1 <:+ p) :
    lookupLanguage (l1 ++ l2) p = lookupLanguage l2 p := by
  induction l1 with
  | nil => rfl
  | cons a t ih =>
    obtain ⟨ext, lang⟩ := a
    rw [List.cons_append]
    simp only [lookupLanguage]
    rw [if_neg (h (ext, lang) (List.mem_cons_self _ _))]
    exact ih fun kv hkv => h kv (List.mem_cons_of_mem _ hkv)

/-- `lookupLanguage` yields `none` when no table extension is a suffix
of the path. -/
lemma lookupLanguage_eq_none (l : List (List Char × String)) (p : List Char)
    (h : ∀ kv ∈ l, ¬ kv.1 <:+ p) : lookupLanguage l p = none := by
  induction l with
  | nil => rfl
  | cons a t ih =>
    obtain ⟨ext, lang⟩ := a
    simp only [lookupLanguage]
    rw [if_neg (h (ext, lang) (List.mem_cons_self _ _))]
    exact ih fun kv hkv => h kv (List.mem_cons_of_mem _ hkv)

/-- Every entry of the scanner's output mapping comes from a patched
file of the input whose language and pattern both resolved, and its
occurrence list is that file's scan result. -/
lemma detect_comments_entry (ps : List PatchedFile) (p : List Char)
    (cs : List CommentLine) (h : (p, cs) ∈ detect_comments ps) :
    ∃ pf ∈ ps, pf.path = p ∧ ∃ language pattern,
      detect_language pf.path = some language ∧
      get_comment_pattern language = some pattern ∧
      cs = detect_comments_in_file pf pf.path pattern := by
  induction ps with
  | nil => simp [detect_comments] at h
  | cons pf rest ih =>
    rw [detect_comments] at h
    split at h
    · obtain ⟨pf2, hm, hrest⟩ := ih h
      exact ⟨pf2, List.mem_cons_of_mem _ hm, hrest⟩
    · split at h
      · obtain ⟨pf2, hm, hrest⟩ := ih h
        exact ⟨pf2, List.mem_cons_of_mem _ hm, hrest⟩
      · rename_i lang hlang
        split at h
        · obtain ⟨pf2, hm, hrest⟩ := ih h
          exact ⟨pf2, List.mem_cons_of_mem _ hm, hrest⟩
        · split at h
          · obtain ⟨pf2, hm, hrest⟩ := ih h
            exact ⟨pf2, List.mem_cons_of_mem _ hm, hrest⟩
          · rename_i pattern hpattern
            dsimp only at h
            split at h
            · obtain ⟨pf2, hm, hrest⟩ := ih h
              exact ⟨pf2, List.mem_cons_of_mem _ hm, hrest⟩
            · rcases List.mem_cons.mp h with h1 | h1
              · obtain ⟨hp, hcs⟩ := Prod.mk.injEq .. ▸ h1
                exact ⟨pf, List.mem_cons_self _ _, hp.symm ▸ ⟨rfl, lang, pattern, hlang, hpattern, hcs.symm ▸ rfl⟩⟩
              · obtain ⟨pf2, hm, hrest⟩ := ih h1
                exact ⟨pf2, List.mem_cons_of_mem _ hm, hrest⟩

/-- C4: paths ending in the shell extension resolve to the shell
profile (single-line hash marker only), paths ending in the perl
module extension resolve to perl, paths matching no table extension
resolve to no language, and a path with no resolved language never
appears in the scanner's output. -/
theorem language_classifier_suffix_table :
    (∀ p : List Char, (".sh".toList) <:+ p → detect_language p = some "shell") ∧
    get_comment_pattern "shell" = some { single_line := some ["#".toList] } ∧
    (∀ p : List Char, (".pm".toList) <:+ p → detect_language p = some "perl") ∧
    (∀ p : List Char, (∀ kv ∈ EXTENSION_TO_LANGUAGE, ¬ kv.1 <:+ p) →
      detect_language p = none) ∧
    (∀ ps p cs, (p, cs) ∈ detect_comments ps → detect_language p ≠ none) := by
  refine ⟨?_, by decide, ?_, ?_, ?_⟩
  · intro p h
    have hpre : ∀ kv ∈ EXTENSION_TO_LANGUAGE.take 21, ¬ kv.1 <:+ p := by
      intro kv hkv
      fin_cases hkv <;> exact not_suffix_of_ne _ _ _ h (by decide) (by decide)
    have e1 : detect_language p =
        lookupLanguage (EXTENSION_TO_LANGUAGE.take 21 ++ EXTENSION_TO_LANGUAGE.drop 21) p := by
      rw [List.take_append_drop]; rfl
    rw [e1, lookupLanguage_append _ _ _ hpre]
    rw [show EXTENSION_TO_LANGUAGE.drop 21 =
      (".sh".toList, "shell") :: EXTENSION_TO_LANGUAGE.drop 22 from rfl]
    simp only [lookupLanguage]
    rw [if_pos h]
  · intro p h
    have hpre : ∀ kv ∈ EXTENSION_TO_LANGUAGE.take 26, ¬ kv.1 <:+ p := by
      intro kv hkv
      fin_cases hkv <;> exact not_suffix_of_ne _ _ _ h (by decide) (by decide)
    have e1 : detect_language p =
        lookupLanguage (EXTENSION_TO_LANGUAGE.take 26 ++ EXTENSION_TO_LANGUAGE.drop 26) p := by
      rw [List.take_append_drop]; rfl
    rw [e1, lookupLanguage_append _ _ _ hpre]
    rw [show EXTENSION_TO_LANGUAGE.drop 26 =
      (".pm".toList, "perl") :: EXTENSION_TO_LANGUAGE.drop 27 from rfl]
    simp only [lookupLanguage]
    rw [if_pos h]
  · intro p h
    exact lookupLanguage_eq_none _ _ h
  · intro ps p cs h
    obtain ⟨pf, hmem, hpath, language, pattern, hlang, _, _⟩ := detect_comments_entry ps p cs h
    rw [← hpath, hlang]
    exact Option.some_ne_none _

/-- Witness for C4 at concrete paths and a concrete patch set. -/
theorem language_classifier_suffix_table_witness :
    detect_language ("a.sh".toList) = some "shell" ∧
    detect_language ("b.pm".toList) = some "perl" ∧
    detect_language ("Makefile".toList) = none ∧
    detect_language ("w.py".toList) ≠ none :=
  ⟨language_classifier_suffix_table.1 ("a.sh".toList) (by decide),
   language_classifier_suffix_table.2.2.1 ("b.pm".toList) (by decide),
   language_classifier_suffix_table.2.2.2.1 ("Makefile".toList) (by decide),
   language_classifier_suffix_table.2.2.2.2
     [⟨"w.py".toList, true, false, [[⟨true, "# hi\n".toList, 1⟩]]⟩]
     ("w.py".toList)
     [⟨"w.py".toList, 1, "# hi\n".toList, false⟩]
     (by decide)⟩

/-- C9: a file whose path is absent from disk is skipped entirely
(processing continues exactly as if its entry were not there, so it is
omitted from the stats while other files process normally), and an
occurrence whose zero-based index is out of the current line bounds is
ignored, contributing no removal, truncation or count. -/
theorem rewriter_skips_missing_files_and_oob_occurrences :
    (∀ (fs : FileSystem) (path : List Char) (cs : List CommentLine)
       (rest : List (List Char × List CommentLine)),
       fsLookup fs path = none →
       remove_comments fs ((path, cs) :: rest) = remove_comments fs rest) ∧
    (∀ (lines : List (List Char)) (c : CommentLine) (cs : List CommentLine),
       ((c.line_number : Int) - 1 < 0 ∨ (lines.length : Int) ≤ (c.line_number : Int) - 1) →
       remove_comments_from_file lines (c :: cs) = remove_comments_from_file lines cs) := by
  constructor
  · intro fs path cs rest h
    simp only [remove_comments, h]
  · intro lines c cs h
    have hskip : ∀ (r : List Nat) (m : List (Nat × List Char)),
        collectLoop lines (c :: cs) r m = collectLoop lines cs r m := by
      intro r m
      rcases h with h | h <;> simp [collectLoop, h]
    simp only [remove_comments_from_file, hskip]

/-- Witness for C9: a missing file is skipped, and a line number far
past the end of a one-line file changes nothing. -/
theorem rewriter_skips_missing_files_and_oob_occurrences_witness :
    remove_comments [("a.py".toList, ["x = 1\n".toList])]
      [("missing.py".toList,
        [⟨"missing.py".toList, 1, "# c\n".toList, false⟩])] =
      remove_comments [("a.py".toList, ["x = 1\n".toList])] [] ∧
    remove_comments_from_file ["x = 1\n".toList]
      [⟨"a.py".toList, 99, "# c\n".toList, false⟩] =
      remove_comments_from_file ["x = 1\n".toList] [] :=
  ⟨rewriter_skips_missing_files_and_oob_occurrences.1
     [("a.py".toList, ["x = 1\n".toList])]
     ("missing.py".toList)
     [⟨"missing.py".toList, 1, "# c\n".toList, false⟩]
     []
     (by decide),
   rewriter_skips_missing_files_and_oob_occurrences.2
     ["x = 1\n".toList]
     ⟨"a.py".toList, 99, "# c\n".toList, false⟩
     []
     (by decide)⟩

/-- The quote-parity heuristic in terms of the counted quotes. -/
lemma is_in_string_eq_true_iff (t : List Char) :
    is_in_string t = true ↔
      (((countSub [Char.ofNat 39] t : Int) -
          (countSub [Char.ofNat 92, Char.ofNat 39] t : Int)) % 2 = 1 ∨
       ((countSub [Char.ofNat 34] t : Int) -
          (countSub [Char.ofNat 92, Char.ofNat 34] t : Int)) % 2 = 1) := by
  simp [is_in_string]

/-- C6: a single-line marker found at a non-zero index of the stripped
line is suppressed (next configured marker tried) when the prefix
before it has an odd number of unescaped single or double quotes, and
honoured when both parities are even; in particular a Python line with
balanced quotes before its hash marker is detected as inline. -/
theorem single_line_marker_quote_parity :
    (∀ (stripped m : List Char) (rest : List (List Char)) (i : Nat),
       findSub m stripped = some i → i ≠ 0 →
       (((countSub [Char.ofNat 39] (stripped.take i) : Int) -
           (countSub [Char.ofNat 92, Char.ofNat 39] (stripped.take i) : Int)) % 2 = 1 ∨
        ((countSub [Char.ofNat 34] (stripped.take i) : Int) -
           (countSub [Char.ofNat 92, Char.ofNat 34] (stripped.take i) : Int)) % 2 = 1) →
       singleLineLoop stripped (m :: rest) = singleLineLoop stripped rest) ∧
    (∀ (stripped m : List Char) (rest : List (List Char)) (i : Nat),
       findSub m stripped = some i → i ≠ 0 →
       ((countSub [Char.ofNat 39] (stripped.take i) : Int) -
          (countSub [Char.ofNat 92, Char.ofNat 39] (stripped.take i) : Int)) % 2 ≠ 1 →
       ((countSub [Char.ofNat 34] (stripped.take i) : Int) -
          (countSub [Char.ofNat 92, Char.ofNat 34] (stripped.take i) : Int)) % 2 ≠ 1 →
       singleLineLoop stripped (m :: rest) = some (!(strip (stripped.take i)).isEmpty)) ∧
    check_single_line_comment ("x = \"a\" # real comment".toList)
      ((get_comment_pattern "python").getD {}) = some true := by
  refine ⟨?_, ?_, by decide⟩
  · intro stripped m rest i h1 h2 h3
    have hs : is_in_string (stripped.take i) = true := (is_in_string_eq_true_iff _).mpr h3
    simp only [singleLineLoop, h1, if_neg h2, hs, if_true]
  · intro stripped m rest i h1 h2 h3 h4
    have hs : is_in_string (stripped.take i) = false := by
      rcases Bool.eq_false_or_eq_true (is_in_string (stripped.take i)) with h | h
      · rcases (is_in_string_eq_true_iff _).mp h with hc | hc
        · exact absurd hc h3
        · exact absurd hc h4
      · exact h
    simp only [singleLineLoop, h1, if_neg h2, hs, Bool.false_eq_true, if_false]
    cases hb : (strip (stripped.take i)).isEmpty <;> simp [hb]

/-- Witness for C6: an odd single quote before the hash suppresses the
marker, balanced double quotes let it through as inline. -/
theorem single_line_marker_quote_parity_witness :
    singleLineLoop ("x = ".toList ++ [Char.ofNat 39] ++ "a # no".toList)
      ["#".toList] =
      singleLineLoop ("x = ".toList ++ [Char.ofNat 39] ++ "a # no".toList) [] ∧
    singleLineLoop ("x = \"a\" # c".toList) ["#".toList] = some true :=
  ⟨single_line_marker_quote_parity.1
     ("x = ".toList ++ [Char.ofNat 39] ++ "a # no".toList)
     ("#".toList) [] 7 (by decide) (by decide) (by decide),
   (single_line_marker_quote_parity.2.1
     ("x = \"a\" # c".toList) ("#".toList) [] 8
     (by decide) (by decide) (by decide) (by decide)).trans (by decide)⟩

/-- `checkOpenLoop` skips a leading block of start markers that do not
occur in the stripped line, advancing the enumerate index past them. -/
lemma checkOpenLoop_skip (stripped : List Char) (ends : List (List Char))
    (pre post : List (List Char))
    (h : ∀ m ∈ pre, containsSub m stripped = false) :
    ∀ i, checkOpenLoop stripped ends (pre ++ post) i =
      checkOpenLoop stripped ends post (i + pre.length) := by
  induction pre with
  | nil => intro i; simp
  | cons m pre ih =>
    intro i
    rw [List.cons_append]
    simp only [checkOpenLoop, h m (List.mem_cons_self _ _), Bool.false_eq_true, if_false]
    rw [ih (fun x hx => h x (List.mem_cons_of_mem _ hx)) (i + 1)]
    congr 1
    simp only [List.length_cons]
    omega

/-- C1 counterexample: a Python added line consisting solely of the
triple-double-quote marker does NOT open a block — because the paired
end marker (the same three characters) is found in the same stripped
line, the code treats the line as a block that opens and closes at
once, recording it whole-line and keeping the state not-in-block. -/
theorem python_lone_triple_quote_does_not_open_block :
    check_multiline_comment [Char.ofNat 34, Char.ofNat 34, Char.ofNat 34]
      ((get_comment_pattern "python").getD {}) false none =
      ⟨true, false, none, false⟩ := by
  decide

/-- C1 as amended: while not in a block, if the first (in configured
order) block-start marker occurring in the stripped line has a paired
end marker that occurs NOWHERE in the stripped line (not merely
"not later"), the scanner records exactly one whole-line occurrence —
even when code precedes the start marker — and transitions to in-block
with that start marker remembered. -/
theorem block_open_records_wholeline_and_opens (line : List Char)
    (pattern : CommentPattern) (ends pre post : List (List Char)) (s : List Char)
    (csm : Option (List Char)) (fp : List Char) (n : Nat) (rest : List DiffLine)
    (hs : pattern.multi_line_start = some (pre ++ s :: post))
    (he : pattern.multi_line_end = some ends)
    (hends : ends ≠ [])
    (hpre : ∀ m ∈ pre, containsSub m (strip line) = false)
    (hmatch : containsSub s (strip line) = true)
    (hend : containsSub
        (if pre.length < ends.length then ends.getD pre.length []
         else ends.getD 0 []) (strip line) = false) :
    check_multiline_comment line pattern false csm = ⟨true, true, some s, false⟩ ∧
    detectLoop fp pattern (⟨true, line, n⟩ :: rest) false csm =
      ⟨fp, n, line, false⟩ :: detectLoop fp pattern rest true (some s) := by
  have hcheck : check_multiline_comment line pattern false csm =
      ⟨true, true, some s, false⟩ := by
    rw [check_multiline_comment]
    simp only [if_neg (Bool.false_ne_true), hs, he, Option.getD_some]
    rw [checkOpenLoop_skip (strip line) ends pre (s :: post) hpre 0]
    simp only [checkOpenLoop, hmatch, if_true, Nat.zero_add]
    rw [if_neg]
    rw [hend]
    exact Bool.false_ne_true
  refine ⟨hcheck, ?_⟩
  rw [detectLoop]
  have htr : (truthyList pattern.multi_line_start && truthyList pattern.multi_line_end) = true := by
    rw [hs, he]
    simp [truthyList, List.isEmpty_eq_true, hends]
  simp only [Bool.not_true, Bool.false_eq_true, if_false, htr, if_true, hcheck]

/-- Witness for C1 (amended) at a C-style line with code before the
opening marker. -/
theorem block_open_records_wholeline_and_opens_witness :
    check_multiline_comment ("x = 5 /* opens\n".toList)
      ((get_comment_pattern "c_style").getD {}) false none =
      ⟨true, true, some ("/*".toList), false⟩ ∧
    detectLoop ("t.c".toList) ((get_comment_pattern "c_style").getD {})
      [⟨true, "x = 5 /* opens\n".toList, 3⟩] false none =
      ⟨"t.c".toList, 3, "x = 5 /* opens\n".toList, false⟩ ::
        detectLoop ("t.c".toList) ((get_comment_pattern "c_style").getD {})
          [] true (some ("/*".toList)) :=
  block_open_records_wholeline_and_opens
    ("x = 5 /* opens\n".toList)
    ((get_comment_pattern "c_style").getD {})
    ["*/".toList] [] [] ("/*".toList) none ("t.c".toList) 3 []
    (by decide) (by decide) (by decide) (by simp) (by decide) (by decide)

/-- The in-block end-marker loop reduces to a check of the single end
marker paired by position: the whole `List.any` succeeds exactly when
the paired index is in range and that end marker satisfies the test. -/
lemma any_paired_end (ends : List (List Char)) (i : Nat) (g : List Char → Bool) :
    (ends.any fun e => decide (i < ends.length) && decide (ends.getD i [] = e) && g e) =
      (decide (i < ends.length) && g (ends.getD i [])) := by
  by_cases h : i < ends.length
  · rw [decide_eq_true h, Bool.true_and]
    cases hg : g (ends.getD i []) with
    | false =>
      apply List.any_eq_false.mpr
      intro e he
      rw [Bool.true_and]
      by_cases hd : ends.getD i [] = e
      · rw [decide_eq_true hd, Bool.true_and, ← hd, hg]
        exact Bool.false_ne_true
      · rw [decide_eq_false hd, Bool.false_and]
        exact Bool.false_ne_true
    | true =>
      apply List.any_eq_true.mpr
      refine ⟨ends.getD i [], ?_, ?_⟩
      · rw [List.getD_eq_getElem ends [] h]
        exact List.getElem_mem h
      · rw [Bool.true_and, decide_eq_true rfl, Bool.true_and]
        exact hg
  · rw [decide_eq_false h, Bool.false_and]
    apply List.any_eq_false.mpr
    intro e he
    rw [Bool.false_and, Bool.false_and]
    exact Bool.false_ne_true

/-- C2 counterexample: with start markers longer than the end-marker
list, an in-block state whose active start marker has index 1 (past the
single end marker) is reachable, and a line containing the first end
marker does NOT close the block — there is no fallback to the first end
marker in the closing path, contrary to the claim. -/
theorem block_close_fallback_counterexample :
    check_multiline_comment ("BB".toList)
      ⟨none, some ["AA".toList, "BB".toList], some ["XX".toList]⟩ false none =
      ⟨true, true, some ("BB".toList), false⟩ ∧
    check_multiline_comment ("XX".toList)
      ⟨none, some ["AA".toList, "BB".toList], some ["XX".toList]⟩
      true (some ("BB".toList)) =
      ⟨true, true, some ("BB".toList), false⟩ := by
  constructor
  · decide
  · decide

/-- C2 as amended: in-block with active start marker `m`, the block
closes (whole-line occurrence, state reset) exactly when `m`'s index is
within the end-marker list AND the end marker paired by position occurs
in the stripped line; otherwise — including when the index is out of
range, where no fallback applies — the line is recorded whole-line and
the block stays open with `m` still active. -/
theorem block_close_paired_by_position (line : List Char)
    (pattern : CommentPattern) (starts ends : List (List Char)) (m : List Char)
    (hs : pattern.multi_line_start = some starts)
    (he : pattern.multi_line_end = some ends)
    (hm : m ∈ starts) (hmne : m ≠ []) :
    check_multiline_comment line pattern true (some m) =
      if starts.indexOf m < ends.length ∧
         containsSub (ends.getD (starts.indexOf m) []) (strip line) = true
      then ⟨true, false, none, false⟩
      else ⟨true, true, some m, false⟩ := by
  rw [check_multiline_comment]
  rw [if_pos rfl]
  simp only [hs, he, Option.getD_some]
  have htr : (truthyStr (some m) && truthyList (some starts)) = true := by
    simp [truthyStr, truthyList, List.isEmpty_eq_true, hmne, List.ne_nil_of_mem hm]
  have hfun : (fun end_marker =>
      if (truthyStr (some m) && truthyList (some starts)) = true then
        decide (List.indexOf m starts < ends.length) &&
          decide (ends.getD (List.indexOf m starts) [] = end_marker) &&
          containsSub end_marker (strip line)
      else containsSub end_marker (strip line)) =
      (fun end_marker =>
        decide (List.indexOf m starts < ends.length) &&
          decide (ends.getD (List.indexOf m starts) [] = end_marker) &&
          (fun e => containsSub e (strip line)) end_marker) :=
    funext fun e => if_pos htr
  rw [hfun, any_paired_end ends (starts.indexOf m) (fun e => containsSub e (strip line))]
  by_cases hc : starts.indexOf m < ends.length ∧
      containsSub (ends.getD (starts.indexOf m) []) (strip line) = true
  · rw [if_pos hc]
    obtain ⟨h1, h2⟩ := hc
    simp only [decide_eq_true h1, Bool.true_and]
    rw [if_pos]
    simpa using h2
  · rw [if_neg hc]
    rcases Decidable.not_and_iff_or_not.mp hc with h1 | h1
    · simp [h1]
    · have h2 : containsSub (ends.getD (starts.indexOf m) []) (strip line) = false :=
        Bool.not_eq_true _ ▸ Bool.eq_false_iff.mpr fun hx => h1 hx
      rw [if_neg]
      intro hx
      rw [Bool.and_eq_true] at hx
      exact absurd hx.2 (by simpa using Bool.eq_false_iff.mp h2)

/-- Witness for C2 (amended) at a Python block opened with the
single-quote triple marker and closed by it. -/
theorem block_close_paired_by_position_witness :
    check_multiline_comment
      ("end of docstring ".toList ++ [Char.ofNat 39, Char.ofNat 39, Char.ofNat 39])
      ((get_comment_pattern "python").getD {}) true
      (some [Char.ofNat 39, Char.ofNat 39, Char.ofNat 39]) =
      ⟨true, false, none, false⟩ :=
  (block_close_paired_by_position
    ("end of docstring ".toList ++ [Char.ofNat 39, Char.ofNat 39, Char.ofNat 39])
    ((get_comment_pattern "python").getD {})
    [['"', '"', '"'], [Char.ofNat 39, Char.ofNat 39, Char.ofNat 39]]
    [['"', '"', '"'], [Char.ofNat 39, Char.ofNat 39, Char.ofNat 39]]
    [Char.ofNat 39, Char.ofNat 39, Char.ofNat 39]
    (by decide) (by decide) (by decide) (by decide)).trans (by decide)

/-- A scan step on an added line that neither block-comment nor
single-line classification marks as a comment emits nothing and leaves
the state not-in-block. -/
lemma detectLoop_noop_step (fp : List Char) (pat : CommentPattern) (v : List Char)
    (n : Nat) (rest : List DiffLine)
    (hml : check_multiline_comment v pat false none = ⟨false, false, none, false⟩)
    (hsl : check_single_line_comment v pat = none) :
    detectLoop fp pat (⟨true, v, n⟩ :: rest) false none =
      detectLoop fp pat rest false none := by
  rw [detectLoop]
  simp only [Bool.not_true, Bool.false_eq_true, if_false]
  split
  · simp [hml, hsl]
  · simp [hsl]

/-- C7 counterexample: for a C-style file, a whitespace-only added line
scanned while inside an open block comment DOES yield a whole-line
occurrence (the code records every in-block line, empty or not). -/
theorem whitespace_line_in_block_yields_occurrence :
    detect_comments
      [⟨"t.c".toList, false, true,
        [[⟨true, "/*\n".toList, 1⟩, ⟨true, "   \n".toList, 2⟩]]⟩] =
      [("t.c".toList,
        [⟨"t.c".toList, 1, "/*\n".toList, false⟩,
         ⟨"t.c".toList, 2, "   \n".toList, false⟩])] := by
  decide

/-- C7 as amended: for every shipped language profile, an added line
that is empty or whitespace-only, scanned while NOT inside an open
block comment, yields no occurrence and leaves the scanner state
unchanged (inside an open block, such a line is recorded as whole-line
block content). -/
theorem whitespace_line_outside_block_yields_nothing (pat : CommentPattern)
    (hp : pat ∈ LANGUAGE_PATTERNS.map Prod.snd) (line : List Char)
    (h : strip line = []) (fp : List Char) (n : Nat) (rest : List DiffLine) :
    detectLoop fp pat (⟨true, line, n⟩ :: rest) false none =
      detectLoop fp pat rest false none := by
  fin_cases hp <;>
    exact detectLoop_noop_step fp _ line n rest
      (by rw [check_multiline_comment, if_neg Bool.false_ne_true, h]; decide)
      (by rw [check_single_line_comment, h]; decide)

/-- Witness for C7 (amended): a whitespace-only Python line outside any
block contributes nothing. -/
theorem whitespace_line_outside_block_yields_nothing_witness :
    detectLoop ("t.py".toList) ((get_comment_pattern "python").getD {})
      [⟨true, "   \n".toList, 4⟩] false none =
      detectLoop ("t.py".toList) ((get_comment_pattern "python").getD {})
        [] false none :=
  whitespace_line_outside_block_yields_nothing
    ((get_comment_pattern "python").getD {}) (by decide)
    ("   \n".toList) (by decide) ("t.py".toList) 4 []

/-- C3 counterexample: for a vim file the Scanner classifies a line
with the configured double-quote marker as inline, but the Rewriter,
which re-locates only against its fixed marker list and the C block
pair, returns the line unchanged instead of truncating it at the
configured marker. -/
theorem rewriter_ignores_configured_markers_counterexample :
    check_single_line_comment ("set number \" c\n".toList)
      ((get_comment_pattern "vim").getD {}) = some true ∧
    remove_inline_comment ("set number \" c\n".toList)
      ("set number \" c\n".toList) = ("set number \" c\n".toList) ∧
    ("set number \" c\n".toList) ≠ ("set number\n".toList) :=
  ⟨by decide, by decide, by decide⟩

/-- C3 as amended: the Rewriter re-locates the marker on the current
on-disk line against the FIXED list `//`, `#`, `--` (each subject to
the quote-parity heuristic; a marker that is absent or suppressed falls
through to the next fixed marker), truncating at the first honoured
marker with the prefix right-trimmed and the newline reattached
whenever the original line ends in one (even for an empty prefix);
when no fixed marker is honoured it falls back to a
single-line-opened-and-closed `/*...*/` block, splicing out the block
and keeping the text after the end marker; otherwise — including for
configured markers outside the fixed list — the line is returned
unchanged. -/
theorem remove_inline_comment_fixed_marker_behavior :
    (∀ (line m : List Char) (rest : List (List Char)) (i : Nat),
       findSub m line = some i → is_in_string (line.take i) = false →
       removeInlineLoop line (m :: rest) =
         some (if endsWithNl line = true then rstrip (line.take i) ++ [Char.ofNat 10]
               else rstrip (line.take i))) ∧
    (∀ (line m : List Char) (rest : List (List Char)),
       findSub m line = none →
       removeInlineLoop line (m :: rest) = removeInlineLoop line rest) ∧
    (∀ (line m : List Char) (rest : List (List Char)) (i : Nat),
       findSub m line = some i → is_in_string (line.take i) = true →
       removeInlineLoop line (m :: rest) = removeInlineLoop line rest) ∧
    (∀ (line original_line : List Char),
       removeInlineLoop line single_line_markers = none →
       findSub ("/*".toList) line = none →
       remove_inline_comment line original_line = line) ∧
    (∀ (line original_line : List Char) (s e2 : Nat),
       removeInlineLoop line single_line_markers = none →
       findSub ("/*".toList) line = some s →
       is_in_string (line.take s) = false →
       findSubFrom ("*/".toList) line s = some e2 →
       remove_inline_comment line original_line =
         (if (!(rstrip (line.take s) ++ lstrip (line.drop (e2 + 2))).isEmpty &&
              !endsWithNl (rstrip (line.take s) ++ lstrip (line.drop (e2 + 2))) &&
              endsWithNl line) = true
          then (rstrip (line.take s) ++ lstrip (line.drop (e2 + 2))) ++ [Char.ofNat 10]
          else rstrip (line.take s) ++ lstrip (line.drop (e2 + 2)))) := by
  refine ⟨?_, ?_, ?_, ?_, ?_⟩
  · intro line m rest i h1 h2
    rw [removeInlineLoop]
    simp only [h1, h2, Bool.false_eq_true, if_false]
  · intro line m rest h1
    rw [removeInlineLoop]
    simp only [h1]
  · intro line m rest i h1 h2
    rw [removeInlineLoop]
    simp only [h1, h2, if_true]
  · intro line original_line h1 h2
    rw [remove_inline_comment]
    simp only [h1, h2]
  · intro line original_line s e2 h1 h2 h3 h4
    rw [remove_inline_comment]
    simp only [h1, h2, h3, Bool.false_eq_true, if_false, h4]

/-- Witness for C3 (amended): a hash marker is honoured with the
newline reattached, and the vim line hits the unchanged fallback. -/
theorem remove_inline_comment_fixed_marker_behavior_witness :
    removeInlineLoop ("    x = 5  # comment\n".toList)
      ["#".toList, "--".toList] =
      some (if endsWithNl ("    x = 5  # comment\n".toList) = true
            then rstrip (("    x = 5  # comment\n".toList).take 11) ++ [Char.ofNat 10]
            else rstrip (("    x = 5  # comment\n".toList).take 11)) ∧
    remove_inline_comment ("set number \" c\n".toList)
      ("set number \" c\n".toList) = ("set number \" c\n".toList) :=
  ⟨remove_inline_comment_fixed_marker_behavior.1
     ("    x = 5  # comment\n".toList) ("#".toList) ["--".toList] 11
     (by decide) (by decide),
   remove_inline_comment_fixed_marker_behavior.2.2.2.1
     ("set number \" c\n".toList) ("set number \" c\n".toList)
     (by decide) (by decide)⟩

/-- The post-image numbers of a patched file's added lines, in diff
order. -/
def addedLineNos (pf : PatchedFile) : List Nat :=
  (pf.hunks.flatten.filter (fun l => l.is_added)).map (fun l => l.target_line_no)

/-- The line numbers of the occurrences a scan emits form a sublist (in
order) of the target line numbers of the added lines scanned. -/
lemma detectLoop_lineNos_sublist (fp : List Char) (pat : CommentPattern)
    (lines : List DiffLine) :
    ∀ (inml : Bool) (csm : Option (List Char)),
    List.Sublist ((detectLoop fp pat lines inml csm).map (fun c => c.line_number))
      ((lines.filter (fun l => l.is_added)).map (fun l => l.target_line_no)) := by
  induction lines with
  | nil =>
    intro inml csm
    simp [detectLoop]
  | cons l rest ih =>
    intro inml csm
    rw [detectLoop]
    cases ha : l.is_added with
    | false =>
      rw [List.filter_cons_of_neg (by simp [ha])]
      simp only [ha, Bool.not_false, if_true]
      exact ih inml csm
    | true =>
      rw [List.filter_cons_of_pos (by simp [ha]), List.map_cons]
      simp only [ha, Bool.not_true, Bool.false_eq_true, if_false]
      split
      · split
        · rw [List.map_cons]
          exact List.Sublist.cons₂ _ (ih _ _)
        · rw [List.map_append]
          split
          · cases hsl : check_single_line_comment l.value pat with
            | none =>
              simp only [hsl, List.map_nil, List.nil_append]
              exact List.Sublist.cons _ (ih _ _)
            | some b =>
              simp only [hsl, List.map_cons, List.map_nil, List.singleton_append]
              exact List.Sublist.cons₂ _ (ih _ _)
          · simp only [List.map_nil, List.nil_append]
            exact List.Sublist.cons _ (ih _ _)
      · rw [List.map_append]
        split
        · cases hsl : check_single_line_comment l.value pat with
          | none =>
            simp only [hsl, List.map_nil, List.nil_append]
            exact List.Sublist.cons _ (ih _ _)
          | some b =>
            simp only [hsl, List.map_cons, List.map_nil, List.singleton_append]
            exact List.Sublist.cons₂ _ (ih _ _)
        · simp only [List.map_nil, List.nil_append]
          exact List.Sublist.cons _ (ih _ _)

/-- The scanner distributes over concatenation of patch sets. -/
lemma detect_comments_append (ps1 ps2 : List PatchedFile) :
    detect_comments (ps1 ++ ps2) = detect_comments ps1 ++ detect_comments ps2 := by
  induction ps1 with
  | nil => rfl
  | cons pf rest ih =>
    rw [List.cons_append, detect_comments, detect_comments]
    split
    · exact ih
    · split
      · exact ih
      · split
        · exact ih
        · split
          · exact ih
          · dsimp only
            split
            · exact ih
            · rw [ih, List.cons_append]

/-- C8: (i) each entry of the scanner's output comes from a file of the
patch set; its occurrence line numbers are strictly ascending whenever
the diff's added line numbers for that file are (well-formed diff), and
every occurrence's line number is the post-image number of one of that
file's ADDED lines; (ii) prepending unrelated files does not change
what is reported for a file — the block state never carries across
files. -/
theorem scanner_output_ordering_and_added_lines :
    (∀ (ps : List PatchedFile) (p : List Char) (cs : List CommentLine),
       (p, cs) ∈ detect_comments ps →
       ∃ pf ∈ ps, pf.path = p ∧
         (List.Sorted (· < ·) (addedLineNos pf) →
           List.Sorted (· < ·) (cs.map (fun c => c.line_number))) ∧
         ∀ c ∈ cs, c.line_number ∈ addedLineNos pf) ∧
    (∀ (ps1 : List PatchedFile) (pf : PatchedFile),
       pf.path ∉ ps1.map (fun f => f.path) →
       (detect_comments (ps1 ++ [pf])).find? (fun e => e.1 = pf.path) =
         (detect_comments [pf]).find? (fun e => e.1 = pf.path)) := by
  constructor
  · intro ps p cs h
    obtain ⟨pf, hmem, hpath, language, pattern, _, _, hcs⟩ := detect_comments_entry ps p cs h
    have hsub : List.Sublist (cs.map (fun c => c.line_number)) (addedLineNos pf) := by
      rw [hcs]
      exact detectLoop_lineNos_sublist pf.path pattern pf.hunks.flatten false none
    refine ⟨pf, hmem, hpath, fun hsorted => hsorted.sublist hsub, ?_⟩
    intro c hc
    exact hsub.subset (List.mem_map_of_mem _ hc)
  · intro ps1 pf hnot
    rw [detect_comments_append]
    rw [List.find?_append]
    have h1 : (detect_comments ps1).find? (fun e => e.1 = pf.path) = none := by
      apply List.find?_eq_none.mpr
      intro e he
      obtain ⟨p, cs⟩ := e
      obtain ⟨pf2, hm, hpath2, _⟩ := detect_comments_entry ps1 p cs he
      simp only [decide_eq_true_eq]
      intro hx
      exact hnot (hx ▸ hpath2 ▸ List.mem_map_of_mem (fun f => f.path) hm)
    rw [h1, Option.none_or]

/-- Witness for C8 at a two-file patch set in different languages. -/
theorem scanner_output_ordering_and_added_lines_witness :
    (∃ pf ∈ [(⟨"t.js".toList, false, true,
          [[⟨true, "// a\n".toList, 1⟩, ⟨false, "x();\n".toList, 2⟩,
            ⟨true, "y(); // b\n".toList, 3⟩]]⟩ : PatchedFile)],
       pf.path = "t.js".toList ∧
        (List.Sorted (· < ·) (addedLineNos pf) →
          List.Sorted (· < ·)
            (([⟨"t.js".toList, 1, "// a\n".toList, false⟩,
               ⟨"t.js".toList, 3, "y(); // b\n".toList, true⟩] : List CommentLine).map
              (fun c => c.line_number))) ∧
        ∀ c ∈ ([⟨"t.js".toList, 1, "// a\n".toList, false⟩,
                ⟨"t.js".toList, 3, "y(); // b\n".toList, true⟩] : List CommentLine),
          c.line_number ∈ addedLineNos pf) ∧
    (detect_comments
        ([⟨"a.rb".toList, false, true, [[⟨true, "# r\n".toList, 1⟩]]⟩] ++
          [⟨"w.sh".toList, true, false, [[⟨true, "# s\n".toList, 1⟩]]⟩])).find?
      (fun e => e.1 = "w.sh".toList) =
      (detect_comments
        [⟨"w.sh".toList, true, false, [[⟨true, "# s\n".toList, 1⟩]]⟩]).find?
      (fun e => e.1 = "w.sh".toList) :=
  ⟨scanner_output_ordering_and_added_lines.1
     [⟨"t.js".toList, false, true,
       [[⟨true, "// a\n".toList, 1⟩, ⟨false, "x();\n".toList, 2⟩,
         ⟨true, "y(); // b\n".toList, 3⟩]]⟩]
     ("t.js".toList)
     [⟨"t.js".toList, 1, "// a\n".toList, false⟩,
      ⟨"t.js".toList, 3, "y(); // b\n".toList, true⟩]
     (by decide),
   scanner_output_ordering_and_added_lines.2
     [⟨"a.rb".toList, false, true, [[⟨true, "# r\n".toList, 1⟩]]⟩]
     ⟨"w.sh".toList, true, false, [[⟨true, "# s\n".toList, 1⟩]]⟩
     (by decide)⟩

/-- Witness for C10 at a concrete one-file patch set. -/
theorem detect_comments_values_nonempty_witness :
    ("w.py".toList,
      [(⟨"w.py".toList, 1, "# hi\n".toList, false⟩ : CommentLine)]) ∈
      detect_comments [⟨"w.py".toList, true, false, [[⟨true, "# hi\n".toList, 1⟩]]⟩] ∧
    [(⟨"w.py".toList, 1, "# hi\n".toList, false⟩ : CommentLine)] ≠ [] :=
  ⟨by decide,
   detect_comments_values_nonempty
     [⟨"w.py".toList, true, false, [[⟨true, "# hi\n".toList, 1⟩]]⟩]
     ("w.py".toList)
     [⟨"w.py".toList, 1, "# hi\n".toList, false⟩]
     (by decide)⟩

end CommentRemover
